import Mathlib

/-!
Verification development for the entrepedia social-networking application.

The repository consists of client-side React views over a hosted
backend-as-a-service plus a small number of serverless HTTP handlers.
This file gives a shallow embedding of the parts of the code base that
carry checkable logic:

* the `create-post` serverless handler (src/supabase/functions/create-post/index.ts);
* the `admin-post-actions` serverless handler
  (src/supabase/functions/admin-post-actions/index.ts);
* the row-level security policies of the messaging tables
  (src/supabase/migrations/20260120082102_....sql);
* the Notifications page's local list handlers (src/src/pages/Notifications.tsx);
* the `PanchayathLocationPicker` parse / recompose effects (src/unnamed/part_002).

Modelling conventions:
* JSON scalar values are modelled by `JVal`.  The handlers never look
  inside composite JSON values - they only test truthiness and compare
  against string literals - so the scalar fragment is sufficient for the
  fields the handlers read.
* Database tables are lists of row structures; a `select ... eq ... maybeSingle`
  is `List.find?` (primary keys are unique, so at most one row matches).
* The database-generated post id and the ambient clock are carried in the
  `DB` state (`freshPostId`, `now`) so that handlers stay pure functions.
* Handlers take the parsed JSON request body as a partial map from field
  names to values (`ReqBody`); a missing field is JavaScript `undefined`,
  which is falsy.
-/

/-- A scalar JSON value, as delivered by `req.json()` destructuring. -/
inductive JVal where
  | jnull
  | jbool (b : Bool)
  | jnum (n : Int)
  | jstr (s : String)
deriving DecidableEq, Repr

/-- JavaScript truthiness of a scalar JSON value. -/
def JVal.truthy : JVal → Bool
  | .jnull => false
  | .jbool b => b
  | .jnum n => n != 0
  | .jstr s => s ≠ ""

/-- Truthiness of a possibly-absent field (`undefined` is falsy). -/
def truthyOpt : Option JVal → Bool
  | none => false
  | some v => v.truthy

/-- JavaScript strict equality between a request-body value and a string
column value (`.eq("col", value)` and `x !== y` in the handlers). -/
def jvalEqStr : Option JVal → String → Bool
  | some (.jstr t), s => t = s
  | _, _ => false

/-- `x || d` on a possibly-absent JSON value, as in `reason || "..."`. -/
def jorDefault (v : Option JVal) (d : JVal) : JVal :=
  match v with
  | some w => if w.truthy then w else d
  | none => d

/-- `x || null`, as in the insert payload of create-post. -/
def jorNull (v : Option JVal) : JVal := jorDefault v JVal.jnull

/-- A row of the `profiles` table (only the columns the handlers touch:
`id` and `role`; `role` defaults to "user" on insert). -/
structure ProfileRow where
  id : String
  role : String
deriving DecidableEq, Repr

/-- A row of the `user_roles` table. -/
structure UserRoleRow where
  user_id : String
  role : String
deriving DecidableEq, Repr

/-- A row of the `businesses` table (columns read by create-post). -/
structure BusinessRow where
  id : String
  owner_id : String
deriving DecidableEq, Repr

/-- A row of the `posts` table (columns written or read by the handlers). -/
structure PostRow where
  id : String
  user_id : JVal
  content : JVal
  image_url : JVal
  youtube_url : JVal
  business_id : JVal
  is_hidden : Bool
  hidden_at : Option String
  hidden_reason : JVal
  created_at : String
deriving DecidableEq, Repr

/-- A row of the `admin_activity_logs` table; `details` is the JSON object
built by the handler, kept as its field list. -/
structure AdminLogRow where
  admin_id : JVal
  action : String
  target_type : String
  target_id : JVal
  details : List (String × JVal)
deriving DecidableEq, Repr

/-- The database state visible to the two serverless handlers. `freshPostId`
is the id the database would generate for the next inserted post and `now`
is the ambient clock (`new Date().toISOString()`); both are part of the
state so the handlers are pure. -/
structure DB where
  profiles : List ProfileRow
  userRoles : List UserRoleRow
  businesses : List BusinessRow
  posts : List PostRow
  adminLogs : List AdminLogRow
  freshPostId : String
  now : String
deriving DecidableEq, Repr

/-- The JSON body of an HTTP response, as actually constructed by the
handlers: an error object, a success message object, or the created post. -/
inductive RespBody where
  | errMsg (msg : String)
  | okMsg (msg : String)
  | okPost (post : PostRow)
deriving DecidableEq, Repr

/-- An HTTP response (status code plus JSON body). -/
structure HttpResponse where
  status : Nat
  body : RespBody
deriving DecidableEq, Repr

def mkErr (status : Nat) (msg : String) : HttpResponse := ⟨status, .errMsg msg⟩

def mkOkMsg (msg : String) : HttpResponse := ⟨200, .okMsg msg⟩

def mkOkPost (p : PostRow) : HttpResponse := ⟨200, .okPost p⟩

/-- A parsed JSON request body: a partial map from field names to values. -/
def ReqBody := String → Option JVal

/-! ## The admin-post-actions handler -/

/-- The fields destructured from the request body by admin-post-actions:
`const \x7b action, post_id, user_id, reason \x7d = await req.json()`. -/
structure AdminReq where
  action : Option JVal
  post_id : Option JVal
  user_id : Option JVal
  reason : Option JVal

def adminReqOf (b : ReqBody) : AdminReq :=
  ⟨b "action", b "post_id", b "user_id", b "reason"⟩

/-- The handler's two-step admin gate: a `user_roles` row for the caller
(any role), or, as fallback, `profiles.role = "admin"`. -/
def hasAdminAccess (db : DB) (uj : Option JVal) : Bool :=
  (db.userRoles.find? (fun r => jvalEqStr uj r.user_id)).isSome ||
    (match db.profiles.find? (fun p => jvalEqStr uj p.id) with
     | some p => p.role = "admin"
     | none => false)

def hideUpdate (db : DB) (pid : Option JVal) (reasonVal : JVal) : List PostRow :=
  db.posts.map (fun p =>
    if jvalEqStr pid p.id then
      { p with is_hidden := true, hidden_at := some db.now, hidden_reason := reasonVal }
    else p)

def unhideUpdate (db : DB) (pid : Option JVal) : List PostRow :=
  db.posts.map (fun p =>
    if jvalEqStr pid p.id then
      { p with is_hidden := false, hidden_at := none, hidden_reason := JVal.jnull }
    else p)

def deletePosts (db : DB) (pid : Option JVal) : List PostRow :=
  db.posts.filter (fun p => !(jvalEqStr pid p.id))

/-- The core of the admin-post-actions handler, after body destructuring.
Mirrors src/supabase/functions/admin-post-actions/index.ts lines 17-156. -/
def adminCore (r : AdminReq) (db : DB) : HttpResponse × DB :=
  if !(truthyOpt r.action && truthyOpt r.post_id && truthyOpt r.user_id) then
    (mkErr 400 "action, post_id, and user_id are required", db)
  else if !(hasAdminAccess db r.user_id) then
    (mkErr 403 "Unauthorized: Admin access required", db)
  else if r.action = some (.jstr "hide") then
    let reasonVal := jorDefault r.reason (.jstr "Hidden by admin due to report")
    let log : AdminLogRow :=
      { admin_id := r.user_id.getD .jnull, action := "hide_post",
        target_type := "post", target_id := r.post_id.getD .jnull,
        details := [("reason", reasonVal)] }
    (mkOkMsg "Post hidden successfully",
      { db with posts := hideUpdate db r.post_id reasonVal,
                adminLogs := db.adminLogs ++ [log] })
  else if r.action = some (.jstr "delete") then
    let log : AdminLogRow :=
      { admin_id := r.user_id.getD .jnull, action := "delete_post",
        target_type := "post", target_id := r.post_id.getD .jnull,
        details := [("reason", jorDefault r.reason (.jstr "Deleted by admin"))] }
    (mkOkMsg "Post deleted successfully",
      { db with posts := deletePosts db r.post_id,
                adminLogs := db.adminLogs ++ [log] })
  else if r.action = some (.jstr "unhide") then
    let log : AdminLogRow :=
      { admin_id := r.user_id.getD .jnull, action := "unhide_post",
        target_type := "post", target_id := r.post_id.getD .jnull,
        details := [] }
    (mkOkMsg "Post unhidden successfully",
      { db with posts := unhideUpdate db r.post_id,
                adminLogs := db.adminLogs ++ [log] })
  else
    (mkErr 400 "Invalid action. Use \x27hide\x27, \x27unhide\x27, or \x27delete\x27", db)

/-- The admin-post-actions serverless handler on a parsed JSON body. -/
def adminPostActions (b : ReqBody) (db : DB) : HttpResponse × DB :=
  adminCore (adminReqOf b) db

/-! ## The create-post handler -/

/-- The fields destructured from the request body by create-post:
`const \x7b user_id, content, image_url, youtube_url, business_id \x7d = await req.json()`. -/
structure CreateReq where
  user_id : Option JVal
  content : Option JVal
  image_url : Option JVal
  youtube_url : Option JVal
  business_id : Option JVal

def createReqOf (b : ReqBody) : CreateReq :=
  ⟨b "user_id", b "content", b "image_url", b "youtube_url", b "business_id"⟩

/-- The "verify user exists" step of create-post: look the profile up and
upsert a bare `\x7b id \x7d` row when it is missing.  Returns `none` when the
upsert itself fails (the body's `user_id` is not a string, so it cannot go
into the uuid column), matching the handler's
"Please complete your profile setup first" branch. -/
def ensureProfile (db : DB) (uj : Option JVal) : Option DB :=
  if (db.profiles.find? (fun p => jvalEqStr uj p.id)).isSome then some db
  else
    match uj with
    | some (.jstr s) => some { db with profiles := db.profiles ++ [⟨s, "user"⟩] }
    | _ => none

/-- Content validation and post insert, the tail of the create-post handler
(lines 75-107 of src/supabase/functions/create-post/index.ts). -/
def createPostFinish (r : CreateReq) (db : DB) : HttpResponse × DB :=
  if !(truthyOpt r.content || truthyOpt r.image_url || truthyOpt r.youtube_url) then
    (mkErr 400 "Post must have content, image, or video", db)
  else
    let post : PostRow :=
      { id := db.freshPostId, user_id := r.user_id.getD .jnull,
        content := jorNull r.content, image_url := jorNull r.image_url,
        youtube_url := jorNull r.youtube_url, business_id := jorNull r.business_id,
        is_hidden := false, hidden_at := none, hidden_reason := JVal.jnull,
        created_at := db.now }
    (mkOkPost post, { db with posts := db.posts ++ [post] })

/-- The core of the create-post handler, after body destructuring.
Mirrors src/supabase/functions/create-post/index.ts lines 23-107. -/
def createCore (r : CreateReq) (db : DB) : HttpResponse × DB :=
  if !(truthyOpt r.user_id) then
    (mkErr 400 "User ID is required", db)
  else
    match ensureProfile db r.user_id with
    | none => (mkErr 400 "Please complete your profile setup first", db)
    | some db1 =>
      if truthyOpt r.business_id then
        match db1.businesses.find? (fun bz => jvalEqStr r.business_id bz.id) with
        | none => (mkErr 404 "Business not found", db1)
        | some bz =>
          if !(jvalEqStr r.user_id bz.owner_id) then
            (mkErr 403 "You don\x27t have permission to post for this business", db1)
          else createPostFinish r db1
      else createPostFinish r db1

/-- The create-post serverless handler on a parsed JSON body. -/
def createPost (b : ReqBody) (db : DB) : HttpResponse × DB :=
  createCore (createReqOf b) db

/-! ## The Notifications page's local list handlers -/

/-- The typed `data` payload of a notification row (src/src/pages/Notifications.tsx). -/
structure NotificationData where
  post_id : Option String := none
  liker_id : Option String := none
  comment_id : Option String := none
  commenter_id : Option String := none
  follower_id : Option String := none
  community_id : Option String := none
  discussion_id : Option String := none
  poster_id : Option String := none
  conversation_id : Option String := none
  message_id : Option String := none
  sender_id : Option String := none
  business_id : Option String := none
deriving DecidableEq, Repr

/-- A row of the `notifications` table as selected by the Notifications page. -/
structure NotificationRow where
  id : String
  user_id : Option String
  type : String
  title : String
  body : Option String
  data : Option NotificationData
  is_read : Option Bool
  created_at : String
deriving DecidableEq, Repr

/-- Insertion step of sorting by `created_at` descending (the database's
`order("created_at", ascending: false)`). -/
def insertByCreatedDesc (r : NotificationRow) : List NotificationRow → List NotificationRow
  | [] => [r]
  | x :: xs =>
    if (compare r.created_at x.created_at).isGE then r :: x :: xs
    else x :: insertByCreatedDesc r xs

def sortByCreatedDesc : List NotificationRow → List NotificationRow
  | [] => []
  | x :: xs => insertByCreatedDesc x (sortByCreatedDesc xs)

/-- The initial load: filter the caller's rows, newest first, `limit(50)`. -/
def loadNotifications (uid : String) (rows : List NotificationRow) : List NotificationRow :=
  (sortByCreatedDesc (rows.filter (fun n => n.user_id = some uid))).take 50

/-- The realtime INSERT handler:
`setItems((prev) => [newNotification, ...prev.slice(0, 49)])`. -/
def insertNotificationHandler (row : NotificationRow) (prev : List NotificationRow) :
    List NotificationRow :=
  row :: prev.take 49

/-- The realtime UPDATE handler: replace the row with the matching id. -/
def updateNotificationHandler (updated : NotificationRow) (prev : List NotificationRow) :
    List NotificationRow :=
  prev.map (fun n => if n.id = updated.id then updated else n)

/-- The realtime DELETE handler: drop the row with the deleted id. -/
def deleteNotificationHandler (deletedId : String) (prev : List NotificationRow) :
    List NotificationRow :=
  prev.filter (fun n => n.id ≠ deletedId)

/-- The click handler's local mark-as-read update. -/
def markReadHandler (nid : String) (prev : List NotificationRow) : List NotificationRow :=
  prev.map (fun n => if n.id = nid then { n with is_read := some true } else n)

/-- The mark-all-as-read local update. -/
def markAllReadHandler (prev : List NotificationRow) : List NotificationRow :=
  prev.map (fun n => { n with is_read := some true })

/-! ## Row-level security policies of the messaging tables -/

/-- A row of the `conversations` table. -/
structure Conversation where
  id : String
  participant_one : String
  participant_two : String
deriving DecidableEq, Repr

/-- A row of the `messages` table (columns the policies mention). -/
structure MessageRow where
  id : String
  conversation_id : String
  sender_id : String
deriving DecidableEq, Repr

/-- Modelled from the spec: the SQL function `is_conversation_participant`
is declared in the generated client types (src/unnamed/part_003, Functions)
and called by the messaging policies, but its body is not in the
repository.  Per the spec's description of policy-based row security for
messaging, it holds exactly when the authenticated user is a participant
(`participant_one` or `participant_two`) of the conversation with the
given id. -/
def is_conversation_participant (uid : String) (convs : List Conversation)
    (convId : String) : Bool :=
  convs.any (fun c => c.id = convId && (c.participant_one = uid || c.participant_two = uid))

/-- Policy "Conversation participants can view messages" (SELECT USING). -/
def messagesSelectPolicy (uid : String) (convs : List Conversation) (m : MessageRow) : Bool :=
  is_conversation_participant uid convs m.conversation_id

/-- Policy "Conversation participants can send messages" (INSERT WITH CHECK):
`auth.uid() = sender_id AND is_conversation_participant(conversation_id)`. -/
def messagesInsertPolicy (uid : String) (convs : List Conversation) (m : MessageRow) : Bool :=
  (uid = m.sender_id) && is_conversation_participant uid convs m.conversation_id

/-! ## The PanchayathLocationPicker parse / recompose effects

Strings are modelled as `List Char` in this component so that splitting,
trimming and joining can be reasoned about directly. -/

/-- The countries list of src/unnamed/part_002. -/
def COUNTRIES : List String :=
  ["India", "United Arab Emirates", "Saudi Arabia", "Qatar", "Kuwait", "Oman",
   "Bahrain", "United States", "United Kingdom", "Canada", "Australia",
   "Singapore", "Malaysia"]

def countriesL : List (List Char) := COUNTRIES.map String.toList

/-- Whitespace as removed by JavaScript's `String.prototype.trim`. -/
def isSpaceChar (c : Char) : Bool := c = ' ' || c = '\t' || c = '\n' || c = '\r'

/-- `s.trim()` on a character list. -/
def trimChars (l : List Char) : List Char :=
  ((l.dropWhile isSpaceChar).reverse.dropWhile isSpaceChar).reverse

/-- `s.split(',')` on a character list. -/
def splitComma : List Char → List (List Char)
  | [] => [[]]
  | c :: cs =>
    if c = ',' then [] :: splitComma cs
    else
      match splitComma cs with
      | [] => [[c]]
      | g :: gs => (c :: g) :: gs

/-- The picker's four state fields. -/
structure LocState where
  place : List Char
  panchayath : List Char
  district : List Char
  country : List Char
deriving DecidableEq, Repr

/-- The parts computation of the parse effect:
`value.split(',').map(s => s.trim()).filter(Boolean)`. -/
def parseParts (value : List Char) : List (List Char) :=
  ((splitComma value).map trimChars).filter (fun p => p ≠ [])

/-- The parse effect of `PanchayathLocationPicker` (src/unnamed/part_002):
split on commas, trim, drop empty parts, detect a trailing known country,
and assign place / panchayath / district.  Returns `none` when the effect
leaves the state untouched (empty value or no parts).  `remaining[i] || ""`
is `getD i []`: entries survived the non-empty filter, so the `|| ""`
fallback only fires for missing indices. -/
def parseLocation (value : List Char) : Option LocState :=
  if value = [] then none
  else
    let parts := parseParts value
    if parts = [] then none
    else
      let last := parts.getLastD []
      let hasExplicitCountry := decide (last ∈ countriesL)
      let nextCountry := if hasExplicitCountry then last else "India".toList
      let remaining := if hasExplicitCountry then parts.dropLast else parts
      some { place := remaining.getD 0 [], panchayath := remaining.getD 1 [],
             district := remaining.getD 2 [], country := nextCountry }

/-- `parts.join(", ")`. -/
def joinSep : List (List Char) → List Char
  | [] => []
  | [x] => x
  | x :: xs => x ++ ',' :: ' ' :: joinSep xs

/-- The recompose effect:
`[place, panchayath, district, country].filter(Boolean).join(", ")`. -/
def joinLocation (st : LocState) : List Char :=
  joinSep (([st.place, st.panchayath, st.district, st.country]).filter (fun p => p ≠ []))

/-! ## Supporting lemmas -/

theorem length_insertByCreatedDesc (r : NotificationRow) (l : List NotificationRow) :
    (insertByCreatedDesc r l).length = l.length + 1 := by
  induction l with
  | nil => rfl
  | cons x xs ih =>
    rw [insertByCreatedDesc]
    split
    · simp
    · simp [ih]

theorem length_sortByCreatedDesc (l : List NotificationRow) :
    (sortByCreatedDesc l).length = l.length := by
  induction l with
  | nil => rfl
  | cons x xs ih => rw [sortByCreatedDesc, length_insertByCreatedDesc, ih, List.length_cons]

/-! ## Claims about the Notifications page -/

/-- C4: the realtime INSERT merge of the Notifications page performs no
deduplication by id and is not idempotent: there is a local list and a
notification row already in it such that handling an INSERT event for
that same row again yields a list containing the row twice. -/
theorem notifications_insert_no_dedup :
    ∃ (prev : List NotificationRow) (r : NotificationRow),
      r ∈ prev ∧ (insertNotificationHandler r prev).count r = 2 ∧
      insertNotificationHandler r (insertNotificationHandler r prev) ≠
        insertNotificationHandler r prev :=
  ⟨[⟨"n1", some "u1", "like", "T", none, none, some false, "t1"⟩],
   ⟨"n1", some "u1", "like", "T", none, none, some false, "t1"⟩, by decide⟩

/-- C8: the Notifications page's local list never exceeds 50 items: the
initial load takes at most 50 rows, the realtime INSERT handler keeps at
most the first 49 existing items, and every other handler on the list
preserves length at most 50. -/
theorem notifications_list_le_fifty (uid : String) (rows : List NotificationRow)
    (r u : NotificationRow) (did nid : String) (prev : List NotificationRow)
    (h : prev.length ≤ 50) :
    (loadNotifications uid rows).length ≤ 50 ∧
    (insertNotificationHandler r prev).length ≤ 50 ∧
    (updateNotificationHandler u prev).length ≤ 50 ∧
    (deleteNotificationHandler did prev).length ≤ 50 ∧
    (markReadHandler nid prev).length ≤ 50 ∧
    (markAllReadHandler prev).length ≤ 50 := by
  refine ⟨?_, ?_, ?_, ?_, ?_, ?_⟩
  · simp only [loadNotifications]
    exact List.length_take_le 50 _
  · have h49 := List.length_take_le 49 prev
    simp only [insertNotificationHandler, List.length_cons]
    omega
  · simpa [updateNotificationHandler] using h
  · exact le_trans (List.length_filter_le _ _) h
  · simpa [markReadHandler] using h
  · simpa [markAllReadHandler] using h

theorem notifications_list_le_fifty_witness :
    (loadNotifications "u1" []).length ≤ 50 ∧
    (insertNotificationHandler ⟨"n1", some "u1", "like", "T", none, none, some false, "t1"⟩
      []).length ≤ 50 ∧
    (updateNotificationHandler ⟨"n1", some "u1", "like", "T", none, none, some false, "t1"⟩
      []).length ≤ 50 ∧
    (deleteNotificationHandler "n1" []).length ≤ 50 ∧
    (markReadHandler "n1" []).length ≤ 50 ∧
    (markAllReadHandler []).length ≤ 50 :=
  notifications_list_le_fifty "u1" []
    ⟨"n1", some "u1", "like", "T", none, none, some false, "t1"⟩
    ⟨"n1", some "u1", "like", "T", none, none, some false, "t1"⟩
    "n1" "n1" [] (by decide)

/-! ## Claim about the messaging row-level security policies -/

/-- C7: under the declared policies, a user who is a participant of no
conversation with the message's conversation id cannot read the message
(SELECT policy is false), and a message row passes the INSERT policy only
when the authenticated user is its sender and a participant of the target
conversation. -/
theorem messages_policies_participants_only (uid : String) (convs : List Conversation)
    (m : MessageRow)
    (h : ∀ c ∈ convs, c.id = m.conversation_id →
      c.participant_one ≠ uid ∧ c.participant_two ≠ uid) :
    messagesSelectPolicy uid convs m = false ∧
    ∀ (u2 : String) (m2 : MessageRow), messagesInsertPolicy u2 convs m2 = true →
      u2 = m2.sender_id ∧ ∃ c ∈ convs, c.id = m2.conversation_id ∧
        (c.participant_one = u2 ∨ c.participant_two = u2) := by
  constructor
  · rw [messagesSelectPolicy, is_conversation_participant, List.any_eq_false]
    intro c hc
    simp only [Bool.and_eq_true, Bool.or_eq_true, decide_eq_true_eq, not_and, not_or]
    intro hid
    exact h c hc hid
  · intro u2 m2 hins
    rw [messagesInsertPolicy] at hins
    simp only [Bool.and_eq_true, decide_eq_true_eq, is_conversation_participant,
      List.any_eq_true, Bool.or_eq_true] at hins
    obtain ⟨h1, c, hc, hid, hp⟩ := hins
    exact ⟨h1, c, hc, hid, hp⟩

theorem messages_policies_participants_only_witness :
    messagesSelectPolicy "intruder" [⟨"c1", "alice", "bob"⟩] ⟨"m1", "c1", "alice"⟩ = false :=
  (messages_policies_participants_only "intruder" [⟨"c1", "alice", "bob"⟩]
    ⟨"m1", "c1", "alice"⟩ (by decide)).1

/-! ## Claims about the admin-post-actions handler -/

/-- C1: for a request with action hide, unhide or delete (and the required
post_id and user_id fields present), the posts table is mutated only if
the caller passes the handler's admin gate, and a caller failing the gate
gets a 403 "Unauthorized: Admin access required" response with the whole
database state unchanged. -/
theorem admin_post_actions_admin_gate (b : ReqBody) (db : DB)
    (ha : b "action" = some (.jstr "hide") ∨ b "action" = some (.jstr "unhide") ∨
      b "action" = some (.jstr "delete"))
    (hp : truthyOpt (b "post_id") = true)
    (hu : truthyOpt (b "user_id") = true) :
    ((adminPostActions b db).2.posts ≠ db.posts →
      hasAdminAccess db (b "user_id") = true) ∧
    (hasAdminAccess db (b "user_id") = false →
      adminPostActions b db = (mkErr 403 "Unauthorized: Admin access required", db)) := by
  cases hadm : hasAdminAccess db (b "user_id") with
  | true =>
    exact ⟨fun _ => rfl, fun hf => nomatch hf⟩
  | false =>
    have htr : truthyOpt (b "action") = true := by
      rcases ha with h | h | h <;> simp [h, truthyOpt, JVal.truthy]
    have hres : adminPostActions b db = (mkErr 403 "Unauthorized: Admin access required", db) := by
      simp [adminPostActions, adminCore, adminReqOf, htr, hp, hu, hadm]
    refine ⟨fun hne => ?_, fun _ => hres⟩
    exact absurd (show (adminPostActions b db).2.posts = db.posts by rw [hres]) hne

theorem admin_post_actions_admin_gate_witness :
    adminPostActions
      (fun f => if f = "action" then some (.jstr "hide")
        else if f = "post_id" then some (.jstr "p1")
        else if f = "user_id" then some (.jstr "u1") else none)
      ⟨[], [], [], [], [], "fp", "t0"⟩ =
    (mkErr 403 "Unauthorized: Admin access required", ⟨[], [], [], [], [], "fp", "t0"⟩) :=
  (admin_post_actions_admin_gate
    (fun f => if f = "action" then some (.jstr "hide")
      else if f = "post_id" then some (.jstr "p1")
      else if f = "user_id" then some (.jstr "u1") else none)
    ⟨[], [], [], [], [], "fp", "t0"⟩
    (Or.inl (by decide)) (by decide) (by decide)).2 (by decide)

/-- C10: when action, post_id and user_id are present, the caller passes
the admin gate, and the action is none of hide, unhide or delete, the
handler returns 400 with the invalid-action error and leaves the whole
database state (posts and admin_activity_logs included) unchanged. -/
theorem admin_post_actions_invalid_action (b : ReqBody) (db : DB)
    (ha : truthyOpt (b "action") = true)
    (hp : truthyOpt (b "post_id") = true)
    (hu : truthyOpt (b "user_id") = true)
    (hadm : hasAdminAccess db (b "user_id") = true)
    (h1 : b "action" ≠ some (.jstr "hide"))
    (h2 : b "action" ≠ some (.jstr "unhide"))
    (h3 : b "action" ≠ some (.jstr "delete")) :
    adminPostActions b db =
      (mkErr 400 "Invalid action. Use \x27hide\x27, \x27unhide\x27, or \x27delete\x27", db) := by
  simp [adminPostActions, adminCore, adminReqOf, ha, hp, hu, hadm, h1, h2, h3]

theorem admin_post_actions_invalid_action_witness :
    adminPostActions
      (fun f => if f = "action" then some (.jstr "ban")
        else if f = "post_id" then some (.jstr "p1")
        else if f = "user_id" then some (.jstr "u1") else none)
      ⟨[], [⟨"u1", "super_admin"⟩], [], [], [], "fp", "t0"⟩ =
    (mkErr 400 "Invalid action. Use \x27hide\x27, \x27unhide\x27, or \x27delete\x27",
      ⟨[], [⟨"u1", "super_admin"⟩], [], [], [], "fp", "t0"⟩) :=
  admin_post_actions_invalid_action
    (fun f => if f = "action" then some (.jstr "ban")
      else if f = "post_id" then some (.jstr "p1")
      else if f = "user_id" then some (.jstr "u1") else none)
    ⟨[], [⟨"u1", "super_admin"⟩], [], [], [], "fp", "t0"⟩
    (by decide) (by decide) (by decide) (by decide) (by decide) (by decide) (by decide)

/-- C6: each handler's behaviour (response and resulting database state)
depends only on the named fields its body destructuring reads: two
admin-post-actions requests agreeing on action, post_id, user_id and
reason behave identically, and two create-post requests agreeing on
user_id, content, image_url, youtube_url and business_id behave
identically; all other body fields are ignored. -/
theorem handlers_depend_only_on_named_fields (b1 b2 bc1 bc2 : ReqBody) (db : DB)
    (ha1 : b1 "action" = b2 "action") (ha2 : b1 "post_id" = b2 "post_id")
    (ha3 : b1 "user_id" = b2 "user_id") (ha4 : b1 "reason" = b2 "reason")
    (hc1 : bc1 "user_id" = bc2 "user_id") (hc2 : bc1 "content" = bc2 "content")
    (hc3 : bc1 "image_url" = bc2 "image_url") (hc4 : bc1 "youtube_url" = bc2 "youtube_url")
    (hc5 : bc1 "business_id" = bc2 "business_id") :
    adminPostActions b1 db = adminPostActions b2 db ∧
    createPost bc1 db = createPost bc2 db := by
  constructor
  · show adminCore (adminReqOf b1) db = adminCore (adminReqOf b2) db
    have h : adminReqOf b1 = adminReqOf b2 := by
      rw [adminReqOf, adminReqOf, ha1, ha2, ha3, ha4]
    rw [h]
  · show createCore (createReqOf bc1) db = createCore (createReqOf bc2) db
    have h : createReqOf bc1 = createReqOf bc2 := by
      rw [createReqOf, createReqOf, hc1, hc2, hc3, hc4, hc5]
    rw [h]

theorem handlers_depend_only_on_named_fields_witness :
    adminPostActions
      (fun f => if f = "action" then some (.jstr "hide")
        else if f = "post_id" then some (.jstr "p1")
        else if f = "user_id" then some (.jstr "u1") else none)
      ⟨[], [], [], [], [], "fp", "t0"⟩ =
    adminPostActions
      (fun f => if f = "ignored_extra" then some (.jstr "junk")
        else if f = "action" then some (.jstr "hide")
        else if f = "post_id" then some (.jstr "p1")
        else if f = "user_id" then some (.jstr "u1") else none)
      ⟨[], [], [], [], [], "fp", "t0"⟩ ∧
    createPost
      (fun f => if f = "user_id" then some (.jstr "u1")
        else if f = "content" then some (.jstr "hello") else none)
      ⟨[], [], [], [], [], "fp", "t0"⟩ =
    createPost
      (fun f => if f = "ignored_extra" then some (.jstr "junk")
        else if f = "user_id" then some (.jstr "u1")
        else if f = "content" then some (.jstr "hello") else none)
      ⟨[], [], [], [], [], "fp", "t0"⟩ :=
  handlers_depend_only_on_named_fields
    (fun f => if f = "action" then some (.jstr "hide")
      else if f = "post_id" then some (.jstr "p1")
      else if f = "user_id" then some (.jstr "u1") else none)
    (fun f => if f = "ignored_extra" then some (.jstr "junk")
      else if f = "action" then some (.jstr "hide")
      else if f = "post_id" then some (.jstr "p1")
      else if f = "user_id" then some (.jstr "u1") else none)
    (fun f => if f = "user_id" then some (.jstr "u1")
      else if f = "content" then some (.jstr "hello") else none)
    (fun f => if f = "ignored_extra" then some (.jstr "junk")
      else if f = "user_id" then some (.jstr "u1")
      else if f = "content" then some (.jstr "hello") else none)
    ⟨[], [], [], [], [], "fp", "t0"⟩
    (by decide) (by decide) (by decide) (by decide) (by decide) (by decide) (by decide)
    (by decide) (by decide)

/-! ## Case analysis of the create-post handler -/

theorem ensureProfile_str (db : DB) (u : String) :
    ∃ db1, ensureProfile db (some (.jstr u)) = some db1 ∧
      db1.userRoles = db.userRoles ∧ db1.businesses = db.businesses ∧
      db1.posts = db.posts ∧ db1.adminLogs = db.adminLogs ∧
      db1.freshPostId = db.freshPostId ∧ db1.now = db.now ∧
      (db1.profiles = db.profiles ∨ db1.profiles = db.profiles ++ [⟨u, "user"⟩]) := by
  rw [ensureProfile]
  split
  · exact ⟨db, rfl, rfl, rfl, rfl, rfl, rfl, rfl, Or.inl rfl⟩
  · exact ⟨_, rfl, rfl, rfl, rfl, rfl, rfl, rfl, Or.inr rfl⟩

theorem ensureProfile_some (db : DB) (uj : Option JVal) (db1 : DB)
    (h : ensureProfile db uj = some db1) :
    db1 = db ∨ ∃ u, db1 = { db with profiles := db.profiles ++ [⟨u, "user"⟩] } := by
  rw [ensureProfile.eq_def] at h
  split at h
  · exact Or.inl (Option.some.inj h).symm
  · cases uj with
    | none => cases h
    | some v =>
      cases v with
      | jnull => cases h
      | jbool bb => cases h
      | jnum n => cases h
      | jstr s => exact Or.inr ⟨s, (Option.some.inj h).symm⟩

theorem createCore_db_cases (r : CreateReq) (db : DB) :
    ((createCore r db).2 = db) ∨
    (∃ db1, ensureProfile db r.user_id = some db1 ∧
      ((createCore r db).2 = db1 ∨
       (∃ post, (createCore r db).1 = mkOkPost post ∧
         (createCore r db).2 = { db1 with posts := db1.posts ++ [post] }))) := by
  rw [createCore.eq_def]
  split
  · exact Or.inl rfl
  · split
    · exact Or.inl rfl
    · next db1 heq =>
        right
        refine ⟨db1, heq, ?_⟩
        split
        · split
          · exact Or.inl rfl
          · split
            · exact Or.inl rfl
            · rw [createPostFinish]
              split
              · exact Or.inl rfl
              · exact Or.inr ⟨_, rfl, rfl⟩
        · rw [createPostFinish]
          split
          · exact Or.inl rfl
          · exact Or.inr ⟨_, rfl, rfl⟩

/-! ## Claims about the create-post handler -/

/-- C5: for a create-post request carrying a (string) user_id and a truthy
business_id, a post is inserted only when the business lookup succeeds and
its owner is the caller; a missing business yields 404 "Business not
found" and a foreign owner yields 403, in both cases without touching the
posts table. -/
theorem create_post_business_ownership (b : ReqBody) (db : DB) (u : String)
    (hu : b "user_id" = some (.jstr u)) (hne : u ≠ "")
    (hb : truthyOpt (b "business_id") = true) :
    ((createPost b db).2.posts ≠ db.posts →
      ∃ bz, db.businesses.find? (fun x => jvalEqStr (b "business_id") x.id) = some bz ∧
        bz.owner_id = u) ∧
    (db.businesses.find? (fun x => jvalEqStr (b "business_id") x.id) = none →
      (createPost b db).1 = mkErr 404 "Business not found" ∧
      (createPost b db).2.posts = db.posts) ∧
    (∀ bz, db.businesses.find? (fun x => jvalEqStr (b "business_id") x.id) = some bz →
      bz.owner_id ≠ u →
      (createPost b db).1 = mkErr 403 "You don\x27t have permission to post for this business" ∧
      (createPost b db).2.posts = db.posts) := by
  have e1 : truthyOpt (some (JVal.jstr u)) = true := by
    simpa [truthyOpt, JVal.truthy] using hne
  obtain ⟨db1, hep, hur, hbus, hposts, hlogs, hfp, hnow, hprof⟩ := ensureProfile_str db u
  have hstep : createPost b db = createCore (createReqOf b) db := rfl
  cases hf : db.businesses.find? (fun x => jvalEqStr (b "business_id") x.id) with
  | none =>
    have kr : createPost b db = (mkErr 404 "Business not found", db1) := by
      rw [hstep, createCore.eq_def]
      simp [createReqOf, hu, e1, hep, hb, hbus, hf]
    refine ⟨fun hne' => ?_, fun _ => by rw [kr]; exact ⟨rfl, hposts⟩, fun bz hbz => ?_⟩
    · rw [kr] at hne'; exact absurd hposts hne'
    · cases hbz
  | some bz =>
    by_cases hown : bz.owner_id = u
    · refine ⟨fun _ => ⟨bz, rfl, hown⟩, fun hnone => Option.noConfusion hnone,
        fun bz' hbz' hbown => ?_⟩
      exact absurd (show bz'.owner_id = u by
        rw [← Option.some.inj hbz']; exact hown) hbown
    · have hje : jvalEqStr (some (JVal.jstr u)) bz.owner_id = false := by
        simp only [jvalEqStr, decide_eq_false_iff_not]
        exact fun he => hown he.symm
      have kr : createPost b db =
          (mkErr 403 "You don\x27t have permission to post for this business", db1) := by
        rw [hstep, createCore.eq_def]
        simp [createReqOf, hu, e1, hep, hb, hbus, hf, hje]
      refine ⟨fun hne' => ?_, fun hnone => Option.noConfusion hnone, fun bz' hbz' _ => ?_⟩
      · rw [kr] at hne'; exact absurd hposts hne'
      · rw [kr]; exact ⟨rfl, hposts⟩

theorem create_post_business_ownership_witness :
    (createPost
      (fun f => if f = "user_id" then some (.jstr "u1")
        else if f = "business_id" then some (.jstr "b1")
        else if f = "content" then some (.jstr "hello") else none)
      ⟨[⟨"u1", "user"⟩], [], [], [], [], "fp", "t0"⟩).1 = mkErr 404 "Business not found" ∧
    (createPost
      (fun f => if f = "user_id" then some (.jstr "u1")
        else if f = "business_id" then some (.jstr "b1")
        else if f = "content" then some (.jstr "hello") else none)
      ⟨[⟨"u1", "user"⟩], [], [], [], [], "fp", "t0"⟩).2.posts = [] :=
  (create_post_business_ownership
    (fun f => if f = "user_id" then some (.jstr "u1")
      else if f = "business_id" then some (.jstr "b1")
      else if f = "content" then some (.jstr "hello") else none)
    ⟨[⟨"u1", "user"⟩], [], [], [], [], "fp", "t0"⟩ "u1"
    (by decide) (by decide) (by decide)).2.1 (by decide)

/-- C2 counterexample: a failing create-post request that does change the
database.  With an empty database, a request for user "u1" with an
unknown business "b1" returns the 404 error response, yet the handler has
already upserted the caller's profile row, so the database differs from
the initial one. -/
theorem create_post_error_can_mutate_profiles :
    (createPost
      (fun f => if f = "user_id" then some (.jstr "u1")
        else if f = "business_id" then some (.jstr "b1")
        else if f = "content" then some (.jstr "hello") else none)
      ⟨[], [], [], [], [], "fp", "t0"⟩).1.status = 404 ∧
    (createPost
      (fun f => if f = "user_id" then some (.jstr "u1")
        else if f = "business_id" then some (.jstr "b1")
        else if f = "content" then some (.jstr "hello") else none)
      ⟨[], [], [], [], [], "fp", "t0"⟩).2 ≠ ⟨[], [], [], [], [], "fp", "t0"⟩ := by
  decide

/-- C2 as amended: when a create-post request fails (non-200 response),
the in-flight operation is aborted with no retry or recovery logic, and
the database is left unchanged except that the handler may already have
upserted the caller's profile row before failing. -/
theorem create_post_error_frame (b : ReqBody) (db : DB)
    (h : (createPost b db).1.status ≠ 200) :
    (createPost b db).2 = db ∨
    ∃ u, (createPost b db).2 = { db with profiles := db.profiles ++ [⟨u, "user"⟩] } := by
  rcases createCore_db_cases (createReqOf b) db with h1 | ⟨db1, hep, h2 | ⟨post, hpost, hdb⟩⟩
  · exact Or.inl h1
  · rcases ensureProfile_some db _ db1 hep with rfl | ⟨u, rfl⟩
    · exact Or.inl h2
    · exact Or.inr ⟨u, h2⟩
  · exact absurd (show (createPost b db).1.status = 200 by
      rw [show createPost b db = createCore (createReqOf b) db from rfl, hpost]; rfl) h

theorem create_post_error_frame_witness :
    (createPost
      (fun f => if f = "user_id" then some (.jstr "u1")
        else if f = "business_id" then some (.jstr "b1")
        else if f = "content" then some (.jstr "hello") else none)
      ⟨[], [], [], [], [], "fp", "t0"⟩).2 = (⟨[], [], [], [], [], "fp", "t0"⟩ : DB) ∨
    ∃ u, (createPost
      (fun f => if f = "user_id" then some (.jstr "u1")
        else if f = "business_id" then some (.jstr "b1")
        else if f = "content" then some (.jstr "hello") else none)
      ⟨[], [], [], [], [], "fp", "t0"⟩).2 =
      { (⟨[], [], [], [], [], "fp", "t0"⟩ : DB) with
        profiles := (⟨[], [], [], [], [], "fp", "t0"⟩ : DB).profiles ++ [⟨u, "user"⟩] } :=
  create_post_error_frame
    (fun f => if f = "user_id" then some (.jstr "u1")
      else if f = "business_id" then some (.jstr "b1")
      else if f = "content" then some (.jstr "hello") else none)
    ⟨[], [], [], [], [], "fp", "t0"⟩ (by decide)

/-! ## Claim about the mutation footprint of the serverless functions -/

/-- C3 counterexample: a single successful create-post invocation for a
user without a profile row mutates two tables - it inserts a profiles row
and a posts row - so it is not the case that at most one row in one table
is mutated per invocation. -/
theorem handlers_mutate_two_tables :
    (createPost
      (fun f => if f = "user_id" then some (.jstr "u1")
        else if f = "content" then some (.jstr "hi") else none)
      ⟨[], [], [], [], [], "fp", "t0"⟩).2.profiles ≠ [] ∧
    (createPost
      (fun f => if f = "user_id" then some (.jstr "u1")
        else if f = "content" then some (.jstr "hi") else none)
      ⟨[], [], [], [], [], "fp", "t0"⟩).2.posts ≠ [] := by
  decide

theorem jvalEqStr_unique {pid : Option JVal} {s t : String}
    (h1 : jvalEqStr pid s = true) (h2 : jvalEqStr pid t = true) : s = t := by
  cases pid with
  | none => exact absurd h1 (by simp [jvalEqStr])
  | some v =>
    cases v with
    | jnull => exact absurd h1 (by simp [jvalEqStr])
    | jbool bb => exact absurd h1 (by simp [jvalEqStr])
    | jnum n => exact absurd h1 (by simp [jvalEqStr])
    | jstr w =>
      simp only [jvalEqStr, decide_eq_true_eq] at h1 h2
      rw [← h1, ← h2]

theorem map_match_nodup (l : List PostRow) (pid : Option JVal) (g : PostRow → PostRow)
    (hnd : (l.map PostRow.id).Nodup) :
    l.map (fun p => if jvalEqStr pid p.id then g p else p) = l ∨
    ∃ pre x suf, l = pre ++ x :: suf ∧
      l.map (fun p => if jvalEqStr pid p.id then g p else p) = pre ++ g x :: suf := by
  induction l with
  | nil => exact Or.inl rfl
  | cons a t ih =>
    have hcons := hnd
    rw [List.map_cons, List.nodup_cons] at hcons
    obtain ⟨hna, hndt⟩ := hcons
    cases hm : jvalEqStr pid a.id with
    | true =>
      right
      refine ⟨[], a, t, rfl, ?_⟩
      have hrest : List.map (fun p => if jvalEqStr pid p.id then g p else p) t = t := by
        have hid : ∀ y ∈ t, (if jvalEqStr pid y.id then g y else y) = y := by
          intro y hy
          have hz : jvalEqStr pid y.id = false := by
            cases hq : jvalEqStr pid y.id with
            | false => rfl
            | true =>
              exact absurd (List.mem_map_of_mem PostRow.id hy)
                (by rw [← jvalEqStr_unique hm hq]; exact hna)
          simp [hz]
        calc List.map (fun p => if jvalEqStr pid p.id then g p else p) t
            = List.map id t := List.map_congr_left (fun y hy => by rw [hid y hy]; rfl)
          _ = t := List.map_id t
      simp [List.map_cons, hm, hrest]
    | false =>
      rcases ih hndt with he | ⟨pre, x, suf, hsp, hmp⟩
      · left; simp [List.map_cons, hm, he]
      · right
        exact ⟨a :: pre, x, suf, by rw [hsp, List.cons_append],
          by simp [List.map_cons, hm, hmp, List.cons_append]⟩

theorem filter_match_nodup (l : List PostRow) (pid : Option JVal)
    (hnd : (l.map PostRow.id).Nodup) :
    l.filter (fun p => !(jvalEqStr pid p.id)) = l ∨
    ∃ pre x suf, l = pre ++ x :: suf ∧
      l.filter (fun p => !(jvalEqStr pid p.id)) = pre ++ suf := by
  induction l with
  | nil => exact Or.inl rfl
  | cons a t ih =>
    have hcons := hnd
    rw [List.map_cons, List.nodup_cons] at hcons
    obtain ⟨hna, hndt⟩ := hcons
    cases hm : jvalEqStr pid a.id with
    | true =>
      right
      refine ⟨[], a, t, rfl, ?_⟩
      have hrest : List.filter (fun p => !(jvalEqStr pid p.id)) t = t := by
        rw [List.filter_eq_self]
        intro y hy
        have hz : jvalEqStr pid y.id = false := by
          cases hq : jvalEqStr pid y.id with
          | false => rfl
          | true =>
            exact absurd (List.mem_map_of_mem PostRow.id hy)
              (by rw [← jvalEqStr_unique hm hq]; exact hna)
        simp [hz]
      simp [List.filter_cons, hm, hrest]
    | false =>
      rcases ih hndt with he | ⟨pre, x, suf, hsp, hmp⟩
      · left; simp [List.filter_cons, hm, he]
      · right
        exact ⟨a :: pre, x, suf, by rw [hsp, List.cons_append],
          by simp [List.filter_cons, hm, hmp, List.cons_append]⟩

theorem adminCore_cases (r : AdminReq) (db : DB) :
    (adminCore r db).2 = db ∨
    ∃ lg, (adminCore r db).2.profiles = db.profiles ∧
      (adminCore r db).2.userRoles = db.userRoles ∧
      (adminCore r db).2.businesses = db.businesses ∧
      (adminCore r db).2.adminLogs = db.adminLogs ++ [lg] ∧
      ((adminCore r db).2.posts =
        db.posts.map (fun p => if jvalEqStr r.post_id p.id then
          { p with
            is_hidden := true
            hidden_at := some db.now
            hidden_reason := jorDefault r.reason (.jstr "Hidden by admin due to report") }
          else p) ∨
       (adminCore r db).2.posts = db.posts.filter (fun p => !(jvalEqStr r.post_id p.id)) ∨
       (adminCore r db).2.posts =
        db.posts.map (fun p => if jvalEqStr r.post_id p.id then
          { p with is_hidden := false, hidden_at := none, hidden_reason := JVal.jnull }
          else p)) := by
  rw [adminCore.eq_def]
  split
  · exact Or.inl rfl
  · split
    · exact Or.inl rfl
    · split
      · exact Or.inr ⟨_, rfl, rfl, rfl, rfl, Or.inl rfl⟩
      · split
        · exact Or.inr ⟨_, rfl, rfl, rfl, rfl, Or.inr (Or.inl rfl)⟩
        · split
          · exact Or.inr ⟨_, rfl, rfl, rfl, rfl, Or.inr (Or.inr rfl)⟩
          · exact Or.inl rfl

/-- C3 as amended: the serverless handlers perform only permission checks
and a short fixed sequence of table mutations, but an invocation may
touch up to two tables, at most one row in each (post ids being unique):
create-post leaves user_roles, businesses and admin_activity_logs
untouched and appends at most one profiles row and at most one posts row;
admin-post-actions leaves profiles, user_roles and businesses untouched,
appends at most one admin_activity_logs row, and updates or removes at
most one posts row. -/
theorem handlers_frame_bound (b : ReqBody) (db : DB)
    (hnd : (db.posts.map PostRow.id).Nodup) :
    ((createPost b db).2.userRoles = db.userRoles ∧
     (createPost b db).2.businesses = db.businesses ∧
     (createPost b db).2.adminLogs = db.adminLogs ∧
     ((createPost b db).2.profiles = db.profiles ∨
       ∃ pr, (createPost b db).2.profiles = db.profiles ++ [pr]) ∧
     ((createPost b db).2.posts = db.posts ∨
       ∃ po, (createPost b db).2.posts = db.posts ++ [po])) ∧
    ((adminPostActions b db).2.profiles = db.profiles ∧
     (adminPostActions b db).2.userRoles = db.userRoles ∧
     (adminPostActions b db).2.businesses = db.businesses ∧
     ((adminPostActions b db).2.adminLogs = db.adminLogs ∨
       ∃ lg, (adminPostActions b db).2.adminLogs = db.adminLogs ++ [lg]) ∧
     ((adminPostActions b db).2.posts = db.posts ∨
       (∃ pre x y suf, db.posts = pre ++ x :: suf ∧
         (adminPostActions b db).2.posts = pre ++ y :: suf) ∨
       (∃ pre x suf, db.posts = pre ++ x :: suf ∧
         (adminPostActions b db).2.posts = pre ++ suf))) := by
  constructor
  · have key := createCore_db_cases (createReqOf b) db
    rw [show createCore (createReqOf b) db = createPost b db from rfl] at key
    rcases key with h1 | ⟨db1, hep, h2 | ⟨post, hpost, hdb⟩⟩
    · exact ⟨by rw [h1], by rw [h1], by rw [h1], Or.inl (by rw [h1]), Or.inl (by rw [h1])⟩
    · rcases ensureProfile_some db _ db1 hep with heq | ⟨u, heq⟩
      · have hh := h2.trans heq
        exact ⟨by rw [hh], by rw [hh], by rw [hh], Or.inl (by rw [hh]), Or.inl (by rw [hh])⟩
      · have hh := h2.trans heq
        exact ⟨by rw [hh], by rw [hh], by rw [hh],
          Or.inr ⟨⟨u, "user"⟩, by rw [hh]⟩, Or.inl (by rw [hh])⟩
    · rcases ensureProfile_some db _ db1 hep with heq | ⟨u, heq⟩
      · rw [heq] at hdb
        exact ⟨by rw [hdb], by rw [hdb], by rw [hdb], Or.inl (by rw [hdb]),
          Or.inr ⟨post, by rw [hdb]⟩⟩
      · rw [heq] at hdb
        exact ⟨by rw [hdb], by rw [hdb], by rw [hdb],
          Or.inr ⟨⟨u, "user"⟩, by rw [hdb]⟩, Or.inr ⟨post, by rw [hdb]⟩⟩
  · have key := adminCore_cases (adminReqOf b) db
    rw [show adminCore (adminReqOf b) db = adminPostActions b db from rfl] at key
    rcases key with h1 | ⟨lg, hprof, hur, hbus, hlog, hposts⟩
    · exact ⟨by rw [h1], by rw [h1], by rw [h1], Or.inl (by rw [h1]), Or.inl (by rw [h1])⟩
    · refine ⟨hprof, hur, hbus, Or.inr ⟨lg, hlog⟩, ?_⟩
      rcases hposts with hp | hp | hp
      · rcases map_match_nodup db.posts (adminReqOf b).post_id
            (fun p =>
              { p with
                is_hidden := true
                hidden_at := some db.now
                hidden_reason :=
                  jorDefault (adminReqOf b).reason (.jstr "Hidden by admin due to report") })
            hnd with he | ⟨pre, x, suf, hsp, hmp⟩
        · exact Or.inl (by rw [hp, he])
        · exact Or.inr (Or.inl ⟨pre, x, _, suf, hsp, by rw [hp, hmp]⟩)
      · rcases filter_match_nodup db.posts (adminReqOf b).post_id hnd with
          he | ⟨pre, x, suf, hsp, hmp⟩
        · exact Or.inl (by rw [hp, he])
        · exact Or.inr (Or.inr ⟨pre, x, suf, hsp, by rw [hp, hmp]⟩)
      · rcases map_match_nodup db.posts (adminReqOf b).post_id
            (fun p =>
              { p with
                is_hidden := false
                hidden_at := none
                hidden_reason := JVal.jnull })
            hnd with he | ⟨pre, x, suf, hsp, hmp⟩
        · exact Or.inl (by rw [hp, he])
        · exact Or.inr (Or.inl ⟨pre, x, _, suf, hsp, by rw [hp, hmp]⟩)

theorem handlers_frame_bound_witness :
    (createPost
      (fun f => if f = "user_id" then some (.jstr "u1")
        else if f = "content" then some (.jstr "hi") else none)
      ⟨[], [], [], [], [], "fp", "t0"⟩).2.userRoles = [] ∧
    (adminPostActions
      (fun f => if f = "user_id" then some (.jstr "u1")
        else if f = "content" then some (.jstr "hi") else none)
      ⟨[], [], [], [], [], "fp", "t0"⟩).2.profiles = [] := by
  have h := handlers_frame_bound
    (fun f => if f = "user_id" then some (.jstr "u1")
      else if f = "content" then some (.jstr "hi") else none)
    ⟨[], [], [], [], [], "fp", "t0"⟩ (by decide)
  exact ⟨h.1.1, h.2.1⟩

/-! ## Claim about the location picker parse / recompose roundtrip -/

theorem splitComma_no_comma (xs : List Char) (h : ',' ∉ xs) : splitComma xs = [xs] := by
  induction xs with
  | nil => rfl
  | cons a t ih =>
    have ha : a ≠ ',' := fun hc => h (by rw [hc]; exact List.mem_cons_self _ _)
    have ht : ',' ∉ t := fun hc => h (List.mem_cons_of_mem _ hc)
    rw [splitComma, if_neg ha, ih ht]

theorem splitComma_append (xs ys : List Char) (h : ',' ∉ xs) :
    splitComma (xs ++ ',' :: ys) = xs :: splitComma ys := by
  induction xs with
  | nil => rw [List.nil_append, splitComma, if_pos rfl]
  | cons a t ih =>
    have ha : a ≠ ',' := fun hc => h (by rw [hc]; exact List.mem_cons_self _ _)
    have ht : ',' ∉ t := fun hc => h (List.mem_cons_of_mem _ hc)
    rw [List.cons_append, splitComma, if_neg ha, ih ht]

theorem trimChars_cons_space (x : List Char) : trimChars (' ' :: x) = trimChars x := by
  simp only [trimChars]
  rw [List.dropWhile_cons, if_pos (show isSpaceChar ' ' = true from rfl)]

theorem countriesL_wf : ∀ c ∈ countriesL, c ≠ [] ∧ ',' ∉ c ∧ trimChars c = c := by decide

/-- C9: the PanchayathLocationPicker roundtrip: for a location string
"place, panchayath, district, country" whose four components are
non-empty, comma-free, trimmed, and whose country is one of the
recognised COUNTRIES, the parse effect recovers exactly those four state
fields and the recompose effect returns the original string. -/
theorem location_roundtrip (p q d c : List Char)
    (hp : p ≠ []) (hq : q ≠ []) (hd : d ≠ [])
    (hpc : ',' ∉ p) (hqc : ',' ∉ q) (hdc : ',' ∉ d)
    (hpt : trimChars p = p) (hqt : trimChars q = q) (hdt : trimChars d = d)
    (hc : c ∈ countriesL) :
    parseLocation (p ++ ',' :: ' ' :: (q ++ ',' :: ' ' :: (d ++ ',' :: ' ' :: c))) =
      some ⟨p, q, d, c⟩ ∧
    joinLocation ⟨p, q, d, c⟩ =
      p ++ ',' :: ' ' :: (q ++ ',' :: ' ' :: (d ++ ',' :: ' ' :: c)) := by
  obtain ⟨hcne, hcc, hct⟩ := countriesL_wf c hc
  have hsq : ',' ∉ (' ' :: q) := by
    intro hm
    rcases List.mem_cons.mp hm with hh | hh
    · exact absurd hh (by decide)
    · exact hqc hh
  have hsd : ',' ∉ (' ' :: d) := by
    intro hm
    rcases List.mem_cons.mp hm with hh | hh
    · exact absurd hh (by decide)
    · exact hdc hh
  have hsc : ',' ∉ (' ' :: c) := by
    intro hm
    rcases List.mem_cons.mp hm with hh | hh
    · exact absurd hh (by decide)
    · exact hcc hh
  have hsplit : splitComma (p ++ ',' :: ' ' :: (q ++ ',' :: ' ' :: (d ++ ',' :: ' ' :: c))) =
      [p, ' ' :: q, ' ' :: d, ' ' :: c] := by
    rw [splitComma_append p _ hpc,
        show (' ' :: (q ++ ',' :: ' ' :: (d ++ ',' :: ' ' :: c))) =
          ((' ' :: q) ++ ',' :: (' ' :: (d ++ ',' :: ' ' :: c))) from rfl,
        splitComma_append _ _ hsq,
        show (' ' :: (d ++ ',' :: ' ' :: c)) = ((' ' :: d) ++ ',' :: (' ' :: c)) from rfl,
        splitComma_append _ _ hsd,
        splitComma_no_comma _ hsc]
  have hparts : parseParts (p ++ ',' :: ' ' :: (q ++ ',' :: ' ' :: (d ++ ',' :: ' ' :: c))) =
      [p, q, d, c] := by
    rw [parseParts, hsplit]
    simp [trimChars_cons_space, hpt, hqt, hdt, hct, hp, hq, hd, hcne]
  have hval : (p ++ ',' :: ' ' :: (q ++ ',' :: ' ' :: (d ++ ',' :: ' ' :: c))) ≠ [] := by
    simp
  constructor
  · rw [parseLocation, if_neg hval, hparts]
    simp [List.getD, hc]
  · rw [joinLocation]
    simp [joinSep, hp, hq, hd, hcne]

theorem location_roundtrip_witness :
    parseLocation ("Aluva".toList ++ ',' :: ' ' :: ("Angamaly".toList ++ ',' :: ' ' ::
        ("Ernakulam".toList ++ ',' :: ' ' :: "India".toList))) =
      some ⟨"Aluva".toList, "Angamaly".toList, "Ernakulam".toList, "India".toList⟩ ∧
    joinLocation ⟨"Aluva".toList, "Angamaly".toList, "Ernakulam".toList, "India".toList⟩ =
      "Aluva".toList ++ ',' :: ' ' :: ("Angamaly".toList ++ ',' :: ' ' ::
        ("Ernakulam".toList ++ ',' :: ' ' :: "India".toList)) :=
  location_roundtrip "Aluva".toList "Angamaly".toList "Ernakulam".toList "India".toList
    (by decide) (by decide) (by decide) (by decide) (by decide) (by decide)
    (by decide) (by decide) (by decide) (by decide)
